import Mathlib

/-!
Verification of the staged build-pipeline orchestrator
(`src/py/qcompiler/qcompiler.py`).

The filesystem is modelled as a tree of named entries.  A file carries a
`wellFormed` flag abstracting the one property of its contents the pipeline
depends on: whether the external bytecode compiler (`py_compile.compile`)
succeeds on it.  Directory-entry names never contain a path separator, so
path components are modelled as separate strings and joined with "/" where
the source code compares joined strings.
-/

inductive FSEntry where
  | file (name : String) (wellFormed : Bool)
  | dir (name : String) (children : List FSEntry)

def entryName : FSEntry → String
  | .file n _ => n
  | .dir n _ => n

/-- Model of `os.path.splitext` restricted to basenames (no separator in the
input): split at the last dot, unless every character before that dot is
itself a dot (Python's leading-dot rule, e.g. `.bashrc` has no extension). -/
def splitext (s : String) : String × String :=
  let cs := s.toList
  let idxs := (List.range cs.length).filter (fun i => cs.getD i ' ' = '.')
  match idxs.getLast? with
  | none => (s, "")
  | some i =>
      if (cs.take i).all (fun ch => ch = '.') then (s, "")
      else (String.mk (cs.take i), String.mk (cs.drop i))

/-- Stem of a file name: `os.path.splitext(name)[0]`. -/
def stem (s : String) : String := (splitext s).1

/-- Model of `QCompilerEXE.join_path`: `os.path.join` followed by replacing
every backslash with a slash; on the modelled (slash-separated) paths this is
plain slash-joining. -/
def join_path (a b : String) : String := a ++ "/" ++ b

/-- Joined string form of a component path, as compared against the exclusion
set by the source code. -/
def joinPath (p : List String) : String := String.intercalate "/" p

example : splitext "x.py" = ("x", ".py") := by decide
example : splitext "secret.txt" = ("secret", ".txt") := by decide
example : splitext "noext" = ("noext", "") := by decide
example : splitext ".bashrc" = (".bashrc", "") := by decide

/-!
Stage Compiler (bytecode): `QCompilerPYC`

`QCompilerPYC.__init__` stores `exclude`, `path`, `clean`, `optimize`,
`quiet` and derives `output = cwd/bin/pyc`.
-/

structure PYCConfig where
  exclude : List String := []
  path : String := ""
  clean : Bool := true
  optimize : Nat := 2
  quiet : Bool := false
deriving DecidableEq

/--
Model of `QCompilerPYC.compile_directory` (lines 81-95), acting on the listed
children of a source directory and producing the mirrored output entries
together with the list of source files reported as malformed.

For each entry, in listing order:
* a directory is recursed into (`os.makedirs` creates the output directory
  unconditionally, so an output directory exists even when it ends up empty);
* a file whose extension is `.py` goes through `compile_file`, which calls
  `py_compile.compile(file, cfile, optimize=...)` with the default
  `doraise=False`: on success the compiled file `<stem>.pyc` is written, on a
  malformed source an error is written to `sys.stderr`, no output file is
  created, no exception is raised, and the loop continues;
* any other file is copied unchanged by `shutil.copy2`.
-/
def compile_directory : List FSEntry → List FSEntry × List String
  | [] => ([], [])
  | .dir n cs :: rest =>
      let inner := compile_directory cs
      let outer := compile_directory rest
      (.dir n inner.1 :: outer.1, inner.2 ++ outer.2)
  | .file n ok :: rest =>
      let outer := compile_directory rest
      if (splitext n).2 = ".py" then
        if ok then (.file (stem n ++ ".pyc") ok :: outer.1, outer.2)
        else (outer.1, n :: outer.2)
      else (.file n ok :: outer.1, outer.2)

/-- Model of the directory case of `QCompilerPYC.compile` (lines 105-116):
the source tree is mirrored by `compile_directory`.  The configuration is a
parameter exactly as `self` is; note that `compile` and `compile_directory`
never read `self.exclude`. -/
def pycCompileTree (_cfg : PYCConfig) (es : List FSEntry) : List FSEntry × List String :=
  compile_directory es

example :
    pycCompileTree { exclude := ["secret.txt"], path := "proj" }
      [.file "keep.py" true, .file "secret.txt" true]
      = ([.file "keep.pyc" true, .file "secret.txt" true], []) := by
  have h1 : splitext "keep.py" = ("keep", ".py") := by decide
  have h2 : splitext "secret.txt" = ("secret", ".txt") := by decide
  simp [pycCompileTree, compile_directory, stem, h1, h2]

example :
    compile_directory [.file "a.py" false, .file "b.py" true]
      = ([.file "b.pyc" true], ["a.py"]) := by
  have h1 : splitext "a.py" = ("a", ".py") := by decide
  have h2 : splitext "b.py" = ("b", ".py") := by decide
  simp [compile_directory, stem, h1, h2]

/-!
Directory Stager: `QCompilerPYC.clean_directory`

`clean_directory(directory)` (lines 72-79) runs `os.listdir(directory)` —
which raises `FileNotFoundError` when the directory does not exist and
`NotADirectoryError` when it is a file — then, for each listed entry,
recurses into subdirectories and `os.remove`s files, and finally
`os.rmdir`s the directory itself.  `os.rmdir` only succeeds on an empty
directory; the model keeps that precondition explicit.  Permission errors
are outside the model (every removal of an existing entry succeeds).
-/

inductive OSError where
  | fileNotFoundError
  | notADirectoryError
  | directoryNotEmptyError
deriving DecidableEq

/-- Effect of the `for item in os.listdir(directory)` loop of
`clean_directory` on the contents of one directory: files are removed by
`os.remove`, subdirectories are cleaned recursively and then removed by
`os.rmdir` (which demands emptiness).  Returns the contents remaining after
the loop. -/
def cleanLoop : List FSEntry → Except OSError (List FSEntry)
  | [] => .ok []
  | .file _ _ :: rest => cleanLoop rest
  | .dir _ cs :: rest =>
      match cleanLoop cs with
      | .error e => .error e
      | .ok [] => cleanLoop rest
      | .ok (_ :: _) => .error .directoryNotEmptyError

/-- First entry with the given name among the listed entries (directory
entries have pairwise distinct names on a real filesystem). -/
def findEntry (target : String) : List FSEntry → Option FSEntry
  | [] => none
  | e :: rest => if entryName e = target then some e else findEntry target rest

/-- Removal of the entry with the given name (unique on a real filesystem,
so filtering equals removing the one match). -/
def removeEntry (target : String) (es : List FSEntry) : List FSEntry :=
  es.filter (fun e => entryName e ≠ target)

/-- Model of `QCompilerPYC.clean_directory` seen from the parent directory
of its argument: `parent` lists the sibling entries, `target` is the name of
the directory to clean.  Returns the outcome paired with the parent's
contents afterwards. -/
def clean_directory (parent : List FSEntry) (target : String) :
    Except OSError Unit × List FSEntry :=
  match findEntry target parent with
  | none => (.error .fileNotFoundError, parent)
  | some (.file _ _) => (.error .notADirectoryError, parent)
  | some (.dir _ cs) =>
      match cleanLoop cs with
      | .error e => (.error e, parent)
      | .ok [] => (.ok (), removeEntry target parent)
      | .ok (_ :: _) => (.error .directoryNotEmptyError, parent)

/-!
Stage Packager (archive): `QCompilerPYZ`
-/

/-- Exact runtime type of the inner compiler handed to `QCompilerPYZ`, as
dispatched on by `type(self.compiler) == ...` (lines 215-220); `other`
carries `type(...).__name__` for any further type. -/
inductive InnerKind where
  | pyc
  | pyd
  | other (typeName : String)
deriving DecidableEq

structure PYZConfig where
  path : String
  name : String
  mainClass : String := "Main"
  compressed : Bool := true
  compiler : Option InnerKind := none
  clean : Bool := true
deriving DecidableEq

/-- Observable filesystem/process actions of `QCompilerPYZ.compile`, in
program order. -/
inductive PYZEvent where
  | checkProject (p : String)
  | makedirs (p : String)
  | cleanDirectory (p : String)
  | createArchive (source target : String)
  | runInnerCompiler (outputDir : String)
  | copyAdditionalFiles (src dst : String)
deriving DecidableEq, BEq

/-- Python `str.rstrip`-style loop `while mod_path.endswith("/")` of lines
204-205: drop every trailing slash. -/
def stripTrailingSlashes (s : String) : String :=
  String.mk (s.toList.reverse.dropWhile (fun ch => ch = '/')).reverse

/-- Final path component, `os.path.split(p)[-1]`. -/
def basename (s : String) : String :=
  String.mk (s.toList.reverse.takeWhile (fun ch => ch ≠ '/')).reverse

/--
Model of `QCompilerPYZ.compile` (lines 200-227) as a trace of events over a
filesystem abstracted to the list of existing directory paths.  The event
list records, in program order, what the method does before returning or
raising:

* `check_project(self.path)` (mypy, an external collaborator, no mutation);
* `os.makedirs("bin/pyz/")` when that directory does not exist yet;
* with no inner compiler, archive the source tree directly;
* with an inner compiler: `os.makedirs("obj/pyz/")` when missing, then
  `self.clean_directory("obj/pyz/")` — removing `obj/pyz/` and everything
  under it — then the `type(...)` dispatch, which raises
  `CompilerError("Incompatible compiler: ...")` for a compiler that is
  neither exactly `QCompilerPYC` nor exactly `QCompilerPYD`; otherwise the
  staging directory is recreated, the inner compiler runs redirected there,
  the result is archived, and auxiliary files are copied.
-/
def pyzCompile (c : PYZConfig) (fs : List String) :
    Except String Unit × List PYZEvent :=
  let ev1 := [PYZEvent.checkProject c.path]
  let mod_path := stripTrailingSlashes (c.path.replace "\\" "/")
  let fs1 := if fs.contains "bin/pyz/" then fs else "bin/pyz/" :: fs
  let ev2 := if fs.contains "bin/pyz/" then ev1 else ev1 ++ [PYZEvent.makedirs "bin/pyz/"]
  match c.compiler with
  | none => (.ok (), ev2 ++ [PYZEvent.createArchive mod_path ("bin/pyz/" ++ c.name)])
  | some k =>
      let ev3 := if fs1.contains "obj/pyz/" then ev2 else ev2 ++ [PYZEvent.makedirs "obj/pyz/"]
      let ev4 := ev3 ++ [PYZEvent.cleanDirectory "obj/pyz/"]
      match k with
      | .other n => (.error ("Incompatible compiler: " ++ n), ev4)
      | .pyc =>
          (.ok (), ev4 ++
            [PYZEvent.makedirs "obj/pyz/bin/pyc",
             PYZEvent.runInnerCompiler "obj/pyz/bin/pyc",
             PYZEvent.createArchive ("obj/pyz/bin/pyc/" ++ basename c.path)
               ("bin/pyz/" ++ c.name),
             PYZEvent.copyAdditionalFiles c.path "bin/pyz/"])
      | .pyd =>
          (.ok (), ev4 ++
            [PYZEvent.makedirs "obj/pyz/bin/pyd",
             PYZEvent.runInnerCompiler "obj/pyz/bin/pyd",
             PYZEvent.createArchive ("obj/pyz/bin/pyd/" ++ basename c.path)
               ("bin/pyz/" ++ c.name),
             PYZEvent.copyAdditionalFiles c.path "bin/pyz/"])

/-- Every event other than the mypy check mutates or reads-to-mutate the
filesystem: directory creation, recursive clearing, archive creation, the
inner compilation and the auxiliary-file copy all write to disk. -/
def pyzMutates : PYZEvent → Bool
  | .checkProject _ => false
  | .makedirs _ => true
  | .cleanDirectory _ => true
  | .createArchive _ _ => true
  | .runInnerCompiler _ => true
  | .copyAdditionalFiles _ _ => true

/-- Directory-staging events: the only actions `QCompilerPYZ.compile`
performs before the incompatible-compiler dispatch. -/
def pyzStagingOnly : PYZEvent → Bool
  | .checkProject _ => true
  | .makedirs p => p == "bin/pyz/" || p == "obj/pyz/"
  | .cleanDirectory p => p == "obj/pyz/"
  | .createArchive _ _ => false
  | .runInnerCompiler _ => false
  | .copyAdditionalFiles _ _ => false

/-!
Stage Bundler (executable): `QCompilerEXE`

`QCompilerEXE` extends `object` (line 231), not `QCompiler`.  The record
below holds the instance attributes its `__init__` assigns (lines 280-338),
with the same defaults.  Python option strings that are only tested for
truthiness are modelled as `String` with `""` falsy (`None` behaves the
same in every such test); list options likewise collapse `None` and `[]`
(both falsy, both skipped).  `appName` is `Option String` because
`MultiCompiler` distinguishes `None` (`is None`, line 596) from the
constructor default `""`.
-/

structure EXE where
  oneFile : Bool := false
  hideConsole : Bool := false
  mainFolder : String := ""
  mainFile : String := ""
  mainContents : List String := []
  dllFiles : List String := []
  exclude : List String := []
  icon : String := ""
  allFiles : List (String × String) := []
  upxDirectory : String := ""
  noUnicode : Bool := false
  cleanCompile : Bool := false
  logLevel : String := "INFO"
  appName : Option String := some ""
  extraBinaries : List (String × String) := []
  importPaths : List String := []
  hiddenImports : List String := []
  additionalHooksDirs : List String := []
  runtimeHooks : List String := []
  excludeModules : List String := []
  key : String := ""
  debug : String := ""
  applySymbolTable : Bool := false
  noUPX : Bool := false
  versionFile : String := ""
  manifestFile : String := ""
  requestElevation : Bool := false
  remoteDesktop : Bool := false
  privateAssemblies : Bool := false
  noPreferRedirects : Bool := false
  osxBundleIndentifier : String := ""
  runtimeTempDir : String := ""
  bootloaderIgnoreSignals : Bool := false
  additionalArgs : List String := []
deriving DecidableEq

/-- Python truthiness of an optional string attribute: `None` and `""` are
falsy. -/
def strTruthy : Option String → Bool
  | none => false
  | some s => s ≠ ""

/-- Names bound in the class body of `QCompilerEXE` (lines 231-574): its
methods.  `QCompilerEXE` extends `object`, so these and `object`'s builtins
are the whole method-resolution order — `check_project`, defined only on the
unrelated `QCompiler` ABC (line 28), is absent. -/
def exeClassAttrs : List String :=
  ["__init__", "check", "automatic", "get_command", "compile", "move_project",
   "join_path", "_reindex_relpath", "reindex", "get_args", "parse_arg_list"]

/-- Instance attributes assigned by `QCompilerEXE.__init__` (lines 280-338)
before it calls `self.check()` on line 343, in assignment order.  Neither
`check_project` nor `path` is among them. -/
def exeInstanceAttrs : List String :=
  ["oneFile", "hideConsole", "mainFolder", "mainFile", "mainContents",
   "dllFiles", "exclude", "icon", "allFiles", "upxDirectory", "noUnicode",
   "cleanCompile", "logLevel", "appName", "extraBinaries", "importPaths",
   "hiddenImports", "additionalHooksDirs", "runtimeHooks", "excludeModules",
   "key", "debug", "applySymbolTable", "noUPX", "versionFile", "manifestFile",
   "requestElevation", "remoteDesktop", "privateAssemblies",
   "noPreferRedirects", "osxBundleIndentifier", "runtimeTempDir",
   "bootloaderIgnoreSignals", "additionalArgs"]

inductive PyExc where
  | attributeError (attr : String)
  | compilerError (msg : String)
deriving DecidableEq

/-- Model of `QCompilerEXE.check` (lines 345-354).  Its body evaluates
`self.check_project(self.path)`: Python resolves `self.check_project` first
(instance dict, then class dict, then `object`), raising `AttributeError`
when absent; only then would `self.path` be resolved and, after that, the
icon-exclusion test run. -/
def exeCheck (instAttrs classAttrs : List String) (iconInExclude : Bool) :
    Except PyExc Unit :=
  if instAttrs.contains "check_project" || classAttrs.contains "check_project" then
    if instAttrs.contains "path" || classAttrs.contains "path" then
      if iconInExclude then .error (.compilerError "Cant exclude icon")
      else .ok ()
    else .error (.attributeError "path")
  else .error (.attributeError "check_project")

/-- Model of `QCompilerEXE.__init__` (lines 232-343): the listing of
`main_folder` (an external filesystem input, passed in as `mainContents`)
and the attribute assignments always succeed, the recursion limit is set,
and then `self.check()` runs on the attributes assigned so far. -/
def exeInit (c : EXE) (mainContents : List String) : Except PyExc EXE :=
  let inst := { c with mainContents := mainContents }
  match exeCheck exeInstanceAttrs exeClassAttrs (inst.exclude.contains inst.icon) with
  | .error e => .error e
  | .ok () => .ok inst

example : exeInit { mainFolder := "proj", mainFile := "main.py" } ["main.py"]
    = .error (.attributeError "check_project") := by rfl

/-- Optional argument fragments of `QCompilerEXE.get_args` (lines 489-556),
in the source's append order, between the initial `"-y"` and the final main
file fragment.  Each truthy option contributes exactly one fragment; each
truthy list option contributes one fragment per element in index order. -/
def optArgs (c : EXE) : List String :=
  (if c.oneFile then ["-F"] else [])
  ++ (if c.hideConsole then ["-w"] else [])
  ++ (if c.icon ≠ "" then ["-i \"" ++ join_path c.mainFolder c.icon ++ "\""] else [])
  ++ (c.allFiles.map (fun fl =>
        "--add-data \"" ++ fl.1 ++ "\";\"" ++ fl.2 ++ "\""))
  ++ (c.dllFiles.map (fun f =>
        "--add-data \"" ++ join_path c.mainFolder f ++ "\";\".\""))
  ++ (if c.upxDirectory ≠ "" then ["--upx-dir \"" ++ c.upxDirectory ++ "\""] else [])
  ++ (if c.noUnicode then ["-a"] else [])
  ++ (if c.cleanCompile then ["--clean"] else [])
  ++ (if c.logLevel ≠ "" then ["--log-level " ++ c.logLevel.toUpper] else [])
  ++ (if strTruthy c.appName then ["-n \"" ++ c.appName.getD "" ++ "\""] else [])
  ++ (c.extraBinaries.map (fun sd =>
        "--add-binary \"" ++ sd.1 ++ "\";\"" ++ sd.2 ++ "\""))
  ++ (c.importPaths.map (fun p => "-p " ++ p))
  ++ (c.hiddenImports.map (fun h => "--hidden-import \"" ++ h ++ "\""))
  ++ (c.additionalHooksDirs.map (fun h => "--additional-hooks-dir \"" ++ h ++ "\""))
  ++ (c.runtimeHooks.map (fun h => "--runtime-hook \"" ++ h ++ "\""))
  ++ (c.excludeModules.map (fun m => "--exclude-module \"" ++ m ++ "\""))
  ++ (if c.key ≠ "" then ["--key \"" ++ c.key ++ "\""] else [])
  ++ (if c.debug ≠ "" then ["--debug \"" ++ c.debug ++ "\""] else [])
  ++ (if c.applySymbolTable then ["-s"] else [])
  ++ (if c.noUPX then ["--noupx"] else [])
  ++ (if c.versionFile ≠ "" then ["--version-file \"" ++ c.versionFile ++ "\""] else [])
  ++ (if c.manifestFile ≠ "" then ["-m \"" ++ c.manifestFile ++ "\""] else [])
  ++ (if c.requestElevation then ["--uac-admin"] else [])
  ++ (if c.remoteDesktop then ["--uac-uiaccess"] else [])
  ++ (if c.privateAssemblies then ["--win-private-assemblies"] else [])
  ++ (if c.noPreferRedirects then ["--win-no-prefer-redirects"] else [])
  ++ (if c.osxBundleIndentifier ≠ ""
      then ["--osx-bundle-identifier \"" ++ c.osxBundleIndentifier ++ "\""] else [])
  ++ (if c.runtimeTempDir ≠ "" then ["--runtime-tmpdir \"" ++ c.runtimeTempDir ++ "\""] else [])
  ++ (if c.bootloaderIgnoreSignals then ["--bootloader-ignore-signals"] else [])

/-- Model of `QCompilerEXE.get_args` (lines 484-559): `args = ["-y"]`, the
optional fragments, and finally the main-file fragment (which the source
formats with a leading space, `" \"%s\""`).  Note `additional_args` is never
appended. -/
def get_args (c : EXE) : List String :=
  "-y" :: (optArgs c ++ [" \"" ++ join_path c.mainFolder c.mainFile ++ "\""])

/-- Model of `QCompilerEXE.parse_arg_list` (lines 561-574):
`args = args_list[0]`, then — only when the list has more than one
element — `args += " " + arg` for EVERY `arg` in `args_list`, the first
element included again. -/
def parse_arg_list : List String → String
  | [] => ""
  | a :: rest =>
      if (a :: rest).length > 1 then
        (a :: rest).foldl (fun s x => s ++ " " ++ x) a
      else a

/-- Model of `QCompilerEXE.get_command` (lines 368-376). -/
def get_command (args_list : List String) : String :=
  "pyinstaller " ++ parse_arg_list args_list

/-- Space-separated join: `joinSp [a, b, c] = a ++ " " ++ b ++ " " ++ c`. -/
def joinSp : List String → String
  | [] => ""
  | [a] => a
  | a :: b :: rest => a ++ " " ++ joinSp (b :: rest)

/-- Number of positions of `s` at which `pat` occurs as a contiguous
sub-sequence. -/
def countSub (pat : List Char) : List Char → Nat
  | [] => 0
  | ch :: rest =>
      (if pat.isPrefixOf (ch :: rest) then 1 else 0) + countSub pat rest

example :
    get_args { mainFolder := "proj", mainFile := "main.py", logLevel := "" }
      = ["-y", " \"proj/main.py\""] := by decide

example :
    get_command (get_args { mainFolder := "proj", mainFile := "main.py", logLevel := "" })
      = "pyinstaller -y -y  \"proj/main.py\"" := by decide

/-!
File Indexer: `QCompilerEXE.reindex` / `_reindex_relpath`

The walk records, for each indexed file, its root-relative component path
`p`; the pair the source appends is `(mainFolder/joinPath p, dirname p)`
(`"."` at top level), so the recorded components determine both members.
All comparisons below are made on exactly the joined strings the source
compares: the relative path against `self.exclude` and against
`["bin", "obj", "__pycache__", self.mainFile]`, and — at non-top levels
only — the basename `os.path.split(export_path)[-1]` against
`["__pycache__"]`.
-/

/-- Model of `QCompilerEXE._reindex_relpath` (lines 446-464): walk the
listed entries of `mainFolder/folder`, skipping an entry when its joined
relative path is in the exclusion set, when that joined path is literally
one of `"bin"`, `"obj"`, `"__pycache__"`, or the main file, or when its
basename is `"__pycache__"`; record files and recurse into directories, in
listing order. -/
def reindexRel (c : EXE) (folder : List String) : List FSEntry → List (List String)
  | [] => []
  | .file n _ :: rest =>
      let ep := folder ++ [n]
      if joinPath ep ∈ c.exclude then reindexRel c folder rest
      else if joinPath ep ∈ ["bin", "obj", "__pycache__", c.mainFile] then
        reindexRel c folder rest
      else if n ∈ ["__pycache__"] then reindexRel c folder rest
      else ep :: reindexRel c folder rest
  | .dir n cs :: rest =>
      let ep := folder ++ [n]
      if joinPath ep ∈ c.exclude then reindexRel c folder rest
      else if joinPath ep ∈ ["bin", "obj", "__pycache__", c.mainFile] then
        reindexRel c folder rest
      else if n ∈ ["__pycache__"] then reindexRel c folder rest
      else reindexRel c ep cs ++ reindexRel c folder rest

/-- Model of `QCompilerEXE.reindex` (lines 466-482): walk the top-level
contents of the main folder.  At this level the relative path of an entry is
its bare name, there is no separate basename check, and files are recorded
with destination `"."`. -/
def reindexTop (c : EXE) : List FSEntry → List (List String)
  | [] => []
  | .file n _ :: rest =>
      if n ∈ c.exclude then reindexTop c rest
      else if n ∈ ["bin", "obj", "__pycache__", c.mainFile] then reindexTop c rest
      else [n] :: reindexTop c rest
  | .dir n cs :: rest =>
      if n ∈ c.exclude then reindexTop c rest
      else if n ∈ ["bin", "obj", "__pycache__", c.mainFile] then reindexTop c rest
      else reindexRel c [n] cs ++ reindexTop c rest

/-!
`QCompilerEXE.compile` (lines 379-409)

The method has no `try`/`except`.  After staging paths are computed it sets
`sys.argv` from the command, calls `pyi.run()`, and then UNCONDITIONALLY
prints "An error occurred, traceback follows:" with `traceback.format_exc()`
to `sys.stderr`, computes the output directory and calls
`self.move_project`.  The backend call's outcome is a parameter: if
`pyi.run()` raises, the exception propagates out of `compile` and nothing
after it runs; if it returns, the error report is printed even though
nothing failed, and the relocation runs. -/

inductive EXEEvent where
  | setArgv (command : String)
  | runBackend
  | printErrorReport
  | moveProject (src dst : String)
deriving DecidableEq, BEq

def isMoveProject : EXEEvent → Bool
  | .moveProject _ _ => true
  | _ => false

/-- Model of `QCompilerEXE.compile` as a trace of events (`os.path.abspath`
on the output directory is elided; it does not affect which steps run). -/
def exeCompile (c : EXE) (command : String) (backend : Except String Unit) :
    Except String Unit × List EXEEvent :=
  let temporary_directory := join_path c.mainFolder "obj"
  let output := join_path c.mainFolder "bin"
  let dist_path := temporary_directory ++ "/application"
  let ev0 := [EXEEvent.setArgv command, EXEEvent.runBackend]
  match backend with
  | .error e => (.error e, ev0)
  | .ok () => (.ok (), ev0 ++ [EXEEvent.printErrorReport, EXEEvent.moveProject dist_path output])

/-!
Multi-Target Merger: `MultiCompiler.__init__` (lines 577-613)

`MultiCompiler(compiler, *compilers, appname)` builds
`compilers = list(compilers) + [compiler]` — the first positional argument
is appended LAST.  A first loop validates (no one-file target, pairwise
distinct app names including the merge's own) and accumulates the main
files and per-target bin-folder names; a second loop extends each target's
exclusion set.  `super(QCompilerEXE, self).__init__()` calls
`object.__init__`, bypassing `QCompilerEXE.__init__` entirely.
-/

/-- Model of `os.path.abspath(p)` evaluated while the working directory is
`cwd` (the `os.chdir(compiler.mainFolder)` of line 604): an absolute path is
returned as is, a relative one is anchored at `cwd`.  Normalization of `.`
and `..` segments is elided; the modelled paths contain none. -/
def abspath (cwd p : String) : String :=
  if p.startsWith "/" then p else cwd ++ "/" ++ p

/-- First loop of `MultiCompiler.__init__` (lines 586-599): for each target
in order, raise on one-file mode, raise on an app name already seen
(`_temp_appnames` starts as `[appname]`), then record the app name, the main
file, and the bin-folder name — the stem of the main file when the app name
is literally `None`, and the app name itself otherwise (also when it is the
constructor default `""`). -/
def mcFirstLoop : List EXE → List (Option String) → List String → List String →
    Except String (List String × List String)
  | [], _, mainfiles, binfolders => .ok (mainfiles, binfolders)
  | c :: rest, appnames, mainfiles, binfolders =>
      if c.oneFile then
        .error ("Compiler with mainfile " ++ c.mainFile ++ " is in one-file mode")
      else if c.appName ∈ appnames then
        .error ("A compiler with app name already exists")
      else
        mcFirstLoop rest (appnames ++ [c.appName]) (mainfiles ++ [c.mainFile])
          (binfolders ++ [match c.appName with
                          | none => stem c.mainFile
                          | some s => s])

/-- Second loop of `MultiCompiler.__init__` (lines 603-609) for one target:
with the working directory at the target's main folder, snapshot the
absolute forms of its current exclusion entries, then append EVERY recorded
main file — the target's own included — whose absolute form is not in that
snapshot. -/
def reconcileOne (mainfiles : List String) (c : EXE) : EXE :=
  let excludesAbs := c.exclude.map (abspath c.mainFolder)
  { c with exclude :=
      c.exclude ++ mainfiles.filter (fun f => abspath c.mainFolder f ∉ excludesAbs) }

structure MC where
  appName : String
  binFolders : List String
  compilers : List EXE
deriving DecidableEq

/-- Model of `MultiCompiler.__init__` (lines 578-613). -/
def multiInit (compiler : EXE) (compilers : List EXE) (appname : String) :
    Except String MC :=
  let cs := compilers ++ [compiler]
  match mcFirstLoop cs [some appname] [] [] with
  | .error e => .error e
  | .ok (mainfiles, binfolders) =>
      .ok { appName := appname, binFolders := binfolders,
            compilers := cs.map (reconcileOne mainfiles) }

example :
    multiInit { mainFolder := "pa", mainFile := "a.py", appName := some "A" }
      [{ mainFolder := "pb", mainFile := "b.py", appName := some "B" }] "m"
      = .ok { appName := "m", binFolders := ["B", "A"],
              compilers :=
                [{ mainFolder := "pb", mainFile := "b.py", appName := some "B",
                   exclude := ["b.py", "a.py"] },
                 { mainFolder := "pa", mainFile := "a.py", appName := some "A",
                   exclude := ["b.py", "a.py"] }] } := by rfl

/-!
Concrete configurations used in the theorems below
-/

/-- A minimal bundler configuration: only the mandatory main folder/file
(and an empty log level, so no optional fragment is generated). -/
def exeArgsCx : EXE := { mainFolder := "proj", mainFile := "main.py", logLevel := "" }

/-- Bundler target `A`. -/
def exeA : EXE := { mainFolder := "pa", mainFile := "a.py", appName := some "A" }

/-- Bundler target `B`. -/
def exeB : EXE := { mainFolder := "pb", mainFile := "b.py", appName := some "B" }

/-- The merged build of `MultiCompiler(exeA, exeB, appname="m")`. -/
def mcAB : MC :=
  { appName := "m", binFolders := ["B", "A"],
    compilers := [reconcileOne ["b.py", "a.py"] exeB,
                  reconcileOne ["b.py", "a.py"] exeA] }

/-- A bundler target whose app name was left at the constructor default
`""` (not `None`). -/
def exeDefaultName : EXE := { mainFolder := "p", mainFile := "main.py" }

/-- The merged build of `MultiCompiler(exeDefaultName, appname="m")`. -/
def mcDefaultName : MC :=
  { appName := "m", binFolders := [""],
    compilers := [reconcileOne ["main.py"] exeDefaultName] }

/-- An archive stage whose inner compiler is neither a `QCompilerPYC` nor a
`QCompilerPYD` (e.g. a `QCompilerEXE` passed by mistake). -/
def pyzIncompat : PYZConfig :=
  { path := "proj", name := "app.pyz", compiler := some (.other "QCompilerEXE") }

/-- A bundler configuration for exercising `QCompilerEXE.compile`. -/
def exeCx8 : EXE := { mainFolder := "proj", mainFile := "main.py" }

/-- An indexing configuration with a nonempty exclusion set. -/
def exeIdx : EXE := { mainFile := "main.py", exclude := ["skip.txt"] }

/-- An indexing configuration with an empty exclusion set. -/
def exeIdx7 : EXE := { mainFile := "main.py", exclude := [] }

/-!
Helper lemmas
-/

lemma foldl_space (xs : List String) (a : String) (h : xs ≠ []) :
    xs.foldl (fun s x => s ++ " " ++ x) a = a ++ " " ++ joinSp xs := by
  induction xs generalizing a with
  | nil => cases h rfl
  | cons x xs ih =>
      cases xs with
      | nil => simp [joinSp]
      | cons y ys =>
          rw [List.foldl_cons, ih _ (List.cons_ne_nil _ _)]
          simp [joinSp, String.append_assoc]

lemma parse_arg_list_dup (a : String) (l : List String) (h : l ≠ []) :
    parse_arg_list (a :: l) = joinSp (a :: a :: l) := by
  cases l with
  | nil => cases h rfl
  | cons y ys =>
      have hlen : (a :: y :: ys).length > 1 := by simp
      simp only [parse_arg_list]
      rw [if_pos hlen, List.foldl_cons,
        foldl_space (y :: ys) (a ++ " " ++ a) (List.cons_ne_nil _ _)]
      simp [joinSp, String.append_assoc]

lemma compile_directory_append (es1 es2 : List FSEntry) :
    compile_directory (es1 ++ es2)
      = ((compile_directory es1).1 ++ (compile_directory es2).1,
         (compile_directory es1).2 ++ (compile_directory es2).2) := by
  induction es1 with
  | nil => simp [compile_directory]
  | cons e rest ih =>
      cases e with
      | file n ok =>
          by_cases hpy : (splitext n).2 = ".py" <;> by_cases hok : ok = true <;>
            simp [compile_directory, ih, hpy, hok]
      | dir n cs =>
          simp [compile_directory, ih]

lemma findEntry_removeEntry (target : String) (es : List FSEntry) :
    findEntry target (removeEntry target es) = none := by
  induction es with
  | nil => rfl
  | cons e rest ih =>
      by_cases h : entryName e = target
      · simpa [removeEntry, List.filter, h] using ih
      · simpa [removeEntry, List.filter, findEntry, h] using ih

lemma cleanLoop_ok (es : List FSEntry) : cleanLoop es = .ok [] := by
  induction es using cleanLoop.induct with
  | case1 => simp [cleanLoop]
  | case2 _ _ rest ih => simpa [cleanLoop] using ih
  | case3 _ cs rest e hcs ih =>
      rw [ih] at hcs
      cases hcs
  | case4 _ cs rest hcs ihcs ihrest =>
      simpa [cleanLoop, hcs] using ihrest
  | case5 _ cs rest x xs hcs ih =>
      rw [ih] at hcs
      cases hcs

lemma mcFirstLoop_ok (cs : List EXE) (appnames : List (Option String))
    (mainfiles binfolders : List String) (m b : List String)
    (h : mcFirstLoop cs appnames mainfiles binfolders = .ok (m, b)) :
    m = mainfiles ++ cs.map EXE.mainFile
    ∧ b = binfolders ++ cs.map (fun c => match c.appName with
        | none => stem c.mainFile
        | some s => s) := by
  induction cs generalizing appnames mainfiles binfolders with
  | nil =>
      simp only [mcFirstLoop] at h
      cases h
      simp
  | cons c rest ih =>
      simp only [mcFirstLoop] at h
      by_cases h1 : c.oneFile
      · rw [if_pos h1] at h; cases h
      · rw [if_neg h1] at h
        by_cases h2 : c.appName ∈ appnames
        · rw [if_pos h2] at h; cases h
        · rw [if_neg h2] at h
          obtain ⟨hm, hb⟩ := ih _ _ _ h
          subst hm hb
          simp

lemma reconcile_covers (m : List String) (c1 : EXE) (f : String) (hf : f ∈ m) :
    abspath (reconcileOne m c1).mainFolder f
      ∈ ((reconcileOne m c1).exclude).map (abspath (reconcileOne m c1).mainFolder) := by
  show abspath c1.mainFolder f ∈
    (c1.exclude ++ m.filter
        (fun g => abspath c1.mainFolder g ∉ c1.exclude.map (abspath c1.mainFolder))).map
      (abspath c1.mainFolder)
  rw [List.map_append, List.mem_append]
  by_cases habs : abspath c1.mainFolder f ∈ c1.exclude.map (abspath c1.mainFolder)
  · exact Or.inl habs
  · refine Or.inr (List.mem_map_of_mem _ ?_)
    rw [List.mem_filter]
    exact ⟨hf, by simpa using habs⟩

/-!
Claim theorems
-/

/-- C1: the claim states that a `QCompilerPYC` built with a non-empty
exclusion set never places an excluded file in the output tree.  The code
violates it: `compile`/`compile_directory` never read `self.exclude`, so the
output is independent of the exclusion set (first conjunct), and compiling a
tree containing `secret.txt` with `exclude = ["secret.txt"]` copies
`secret.txt` into the output tree (second conjunct). -/
theorem c1_excluded_file_reaches_output :
    (∀ (excl excl' : List String) (path : String) (cl : Bool) (opt : Nat)
        (q : Bool) (es : List FSEntry),
        pycCompileTree { exclude := excl, path := path, clean := cl,
                         optimize := opt, quiet := q } es
          = pycCompileTree { exclude := excl', path := path, clean := cl,
                             optimize := opt, quiet := q } es)
    ∧ FSEntry.file "secret.txt" true ∈
        (pycCompileTree { exclude := ["secret.txt"], path := "proj" }
          [.file "keep.py" true, .file "secret.txt" true]).1 := by
  constructor
  · intro excl excl' path cl opt q es
    rfl
  · have h1 : splitext "keep.py" = ("keep", ".py") := by decide
    have h2 : splitext "secret.txt" = ("secret", ".txt") := by decide
    simp [pycCompileTree, compile_directory, stem, h1, h2]

/-- C2: for every combination of constructor arguments (and every listing
of the main folder), `QCompilerEXE.__init__` raises
`AttributeError: check_project`: it unconditionally calls `check()`, whose
first step resolves `self.check_project`, which exists neither as an
instance attribute nor on `QCompilerEXE` (which extends `object`, not
`QCompiler`); `self.path` (never assigned) would fail next.  No Stage
Bundler configuration is ever successfully instantiated. -/
theorem c2_exe_init_always_attribute_error :
    ∀ (c : EXE) (mainContents : List String),
      exeInit c mainContents = .error (.attributeError "check_project") := by
  intro c mainContents
  rfl

/-- C4 counterexample: the claim states a malformed source file fails the
whole stage with a raised compile error instead of being reported and
skipped.  In the code, `compile_file` calls `py_compile.compile` with its
default `doraise=False`, which reports the error to `sys.stderr` and
returns without raising: compiling `[a.py (malformed), b.py]` reports
`a.py` and still compiles `b.py`. -/
theorem c4_counterexample :
    compile_directory [.file "a.py" false, .file "b.py" true]
      = ([.file "b.pyc" true], ["a.py"]) := by
  have h1 : splitext "a.py" = ("a", ".py") := by decide
  have h2 : splitext "b.py" = ("b", ".py") := by decide
  simp [compile_directory, stem, h1, h2]

/-- C4 amended: a malformed `.py` file anywhere in a directory listing is
reported (one entry on the error stream naming the file), contributes no
output file, and the stage continues with all entries before and after it
exactly as if the malformed file were absent; no exception is raised. -/
theorem c4_amended_malformed_reported_and_skipped
    (pre post : List FSEntry) (name : String)
    (h : (splitext name).2 = ".py") :
    compile_directory (pre ++ FSEntry.file name false :: post)
      = ((compile_directory pre).1 ++ (compile_directory post).1,
         (compile_directory pre).2 ++ name :: (compile_directory post).2) := by
  have hsplit : pre ++ FSEntry.file name false :: post
      = pre ++ ([FSEntry.file name false] ++ post) := rfl
  rw [hsplit, compile_directory_append pre ([FSEntry.file name false] ++ post),
    compile_directory_append [FSEntry.file name false] post]
  simp [compile_directory, h]

/-- C4 witness: the amended statement applied at a concrete listing with a
malformed `a.py` between two well-formed files. -/
theorem c4_witness :
    (splitext "a.py").2 = ".py"
    ∧ compile_directory
        ([FSEntry.file "k.txt" true] ++ FSEntry.file "a.py" false :: [FSEntry.file "b.py" true])
        = ((compile_directory [FSEntry.file "k.txt" true]).1
            ++ (compile_directory [FSEntry.file "b.py" true]).1,
           (compile_directory [FSEntry.file "k.txt" true]).2
            ++ "a.py" :: (compile_directory [FSEntry.file "b.py" true]).2) :=
  ⟨by decide,
   c4_amended_malformed_reported_and_skipped
     [FSEntry.file "k.txt" true] [FSEntry.file "b.py" true] "a.py" (by decide)⟩

/-- C5 counterexample: the claim states every fragment of the argument
list, the first one included, appears exactly once in the command string.
But `parse_arg_list` seeds the result with `args_list[0]` and then appends
EVERY element again whenever the list has more than one element, so the
first fragment `-y` occurs twice in the command built for a minimal
configuration. -/
theorem c5_counterexample :
    "-y" ∈ get_args exeArgsCx
    ∧ countSub "-y".toList (get_command (get_args exeArgsCx)).toList = 2 := by
  constructor
  · simp [get_args, exeArgsCx]
  · decide

/-- C5 amended: each configured option still contributes its fragments to
the argument LIST exactly once, in the source's fixed order (that is the
content of `get_args`), but the command string duplicates the first
fragment: for every configuration, `get_command(get_args(...))` equals
`"pyinstaller "` followed by the space-joined fragments with the leading
`"-y"` repeated once more at the front. -/
theorem c5_amended_command_repeats_first_fragment (c : EXE) :
    get_command (get_args c)
      = "pyinstaller " ++ joinSp ("-y" :: get_args c) := by
  unfold get_command get_args
  rw [parse_arg_list_dup "-y" (optArgs c ++ [" \"" ++ join_path c.mainFolder c.mainFile ++ "\""])
      (by simp)]

/-- C3 counterexample: the claim states the incompatible-compiler error is
raised before any filesystem mutation.  On an initially empty filesystem,
`QCompilerPYZ.compile` with an incompatible inner compiler creates
`bin/pyz/` and `obj/pyz/` and recursively clears `obj/pyz/` before raising
`CompilerError`. -/
theorem c3_counterexample :
    (pyzCompile pyzIncompat []).1 = .error "Incompatible compiler: QCompilerEXE"
    ∧ (pyzCompile pyzIncompat []).2.any pyzMutates = true
    ∧ (pyzCompile pyzIncompat []).2
        = [.checkProject "proj", .makedirs "bin/pyz/", .makedirs "obj/pyz/",
           .cleanDirectory "obj/pyz/"] := by
  refine ⟨rfl, rfl, rfl⟩

/-- C3 amended: with an inner compiler that is neither exactly
`QCompilerPYC` nor exactly `QCompilerPYD`, `compile()` raises the
incompatible-compiler `CompilerError` before creating the archive, running
the inner compiler, or copying any file — but only after the directory
staging: ensuring `bin/pyz/` and `obj/pyz/` exist and recursively clearing
`obj/pyz/` (which always happens, so mutation does precede the error). -/
theorem c3_amended_error_after_staging_only
    (c : PYZConfig) (fs : List String) (n : String)
    (h : c.compiler = some (.other n)) :
    (pyzCompile c fs).1 = .error ("Incompatible compiler: " ++ n)
    ∧ (pyzCompile c fs).2.all pyzStagingOnly = true
    ∧ PYZEvent.cleanDirectory "obj/pyz/" ∈ (pyzCompile c fs).2 := by
  unfold pyzCompile
  rw [h]
  split_ifs <;> simp [pyzStagingOnly] <;> split <;> simp

/-- C3 witness: the amended statement applied to the concrete incompatible
configuration on an empty filesystem. -/
theorem c3_witness :
    pyzIncompat.compiler = some (.other "QCompilerEXE")
    ∧ ((pyzCompile pyzIncompat []).1 = .error ("Incompatible compiler: " ++ "QCompilerEXE")
       ∧ (pyzCompile pyzIncompat []).2.all pyzStagingOnly = true
       ∧ PYZEvent.cleanDirectory "obj/pyz/" ∈ (pyzCompile pyzIncompat []).2) :=
  ⟨rfl, c3_amended_error_after_staging_only pyzIncompat [] "QCompilerEXE" rfl⟩

/-- C6 counterexample: the claim states a target's own main file is never
added to its own exclusion set.  Merging targets `A` (main file `a.py`) and
`B` (main file `b.py`) with fresh exclusion sets ends with every target's
own main file inside its own exclusion set, because the reconciliation loop
iterates over ALL recorded main files, the target's own included. -/
theorem c6_counterexample :
    (multiInit exeA [exeB] "m").map
        (fun mc => mc.compilers.map (fun c => (c.mainFile, c.exclude.contains c.mainFile)))
      = .ok [("b.py", true), ("a.py", true)] := by
  rfl

/-- C6 amended: during `MultiCompiler` construction each target's exclusion
set is extended with every recorded main file — the other targets' AND its
own — skipping only files whose path-normalized (absolute) form is already
among the target's pre-existing exclusion entries; consequently, after
construction every target's exclusion set covers, up to normalization, the
main file of every target, its own included. -/
theorem c6_amended_exclusions_cover_all_mainfiles
    (compiler : EXE) (compilers : List EXE) (appname : String) (mc : MC)
    (h : multiInit compiler compilers appname = .ok mc) :
    ∀ c' ∈ mc.compilers, ∀ c0 ∈ compilers ++ [compiler],
      abspath c'.mainFolder c0.mainFile
        ∈ (c'.exclude).map (abspath c'.mainFolder) := by
  simp only [multiInit] at h
  cases hfl : mcFirstLoop (compilers ++ [compiler]) [some appname] [] [] with
  | error e => rw [hfl] at h; cases h
  | ok p =>
      rw [hfl] at h
      obtain ⟨mainfiles, binfolders⟩ := p
      cases h
      obtain ⟨hm, _⟩ := mcFirstLoop_ok _ _ _ _ _ _ hfl
      intro c' hc' c0 hc0
      simp only [List.mem_map] at hc'
      obtain ⟨c1, hc1, rfl⟩ := hc'
      refine reconcile_covers mainfiles c1 c0.mainFile ?_
      rw [hm]
      simpa using List.mem_map_of_mem EXE.mainFile hc0

/-- C6 witness: the amended statement applied to the merge of `exeA` and
`exeB`, at target `B` and main file `b.py` — `B`'s own. -/
theorem c6_witness :
    multiInit exeA [exeB] "m" = .ok mcAB
    ∧ abspath (reconcileOne ["b.py", "a.py"] exeB).mainFolder exeB.mainFile
        ∈ ((reconcileOne ["b.py", "a.py"] exeB).exclude).map
            (abspath (reconcileOne ["b.py", "a.py"] exeB).mainFolder) :=
  ⟨rfl,
   c6_amended_exclusions_cover_all_mainfiles exeA [exeB] "m" mcAB rfl
     (reconcileOne ["b.py", "a.py"] exeB) (List.mem_cons_self _ _)
     exeB (List.mem_cons_self _ _)⟩

/-- C8 counterexample: the claim states an exception raised during or after
the backend invocation is reported to the error stream with a traceback and
relocation still runs.  `QCompilerEXE.compile` has no `try`/`except`: when
`pyi.run()` raises, the exception propagates uncaught, nothing is printed to
the error stream, and `move_project` never runs. -/
theorem c8_counterexample :
    (exeCompile exeCx8 "pyinstaller -y" (.error "backend failure")).1
        = .error "backend failure"
    ∧ EXEEvent.printErrorReport
        ∉ (exeCompile exeCx8 "pyinstaller -y" (.error "backend failure")).2
    ∧ (exeCompile exeCx8 "pyinstaller -y" (.error "backend failure")).2.any isMoveProject
        = false := by
  refine ⟨rfl, ?_, rfl⟩
  simp [exeCompile]

/-- C8 amended: when the backend invocation raises, the exception
propagates uncaught out of `compile` — unreported — and relocation does not
run; when the invocation returns normally, the error-report text and a
(vacuous) traceback are printed to the error stream unconditionally and the
relocation step then runs. -/
theorem c8_amended_no_catch_and_unconditional_report
    (c : EXE) (command e : String) :
    ((exeCompile c command (.error e)).1 = .error e
      ∧ EXEEvent.printErrorReport ∉ (exeCompile c command (.error e)).2
      ∧ (exeCompile c command (.error e)).2.any isMoveProject = false)
    ∧ ((exeCompile c command (.ok ())).1 = .ok ()
      ∧ EXEEvent.printErrorReport ∈ (exeCompile c command (.ok ())).2
      ∧ (exeCompile c command (.ok ())).2.any isMoveProject = true) := by
  refine ⟨⟨rfl, ?_, rfl⟩, rfl, ?_, ?_⟩
  · simp [exeCompile]
  · simp [exeCompile]
  · simp [exeCompile, isMoveProject]

/-- C9 counterexample: the claim states the per-target bin-subfolder name
equals the stem of the main file when the app name was left at its default
(unset) value.  The default is `""`, not `None`, and the code tests
`is None`: a target with the default app name gets bin-subfolder `""`, not
`"main"` (the stem of `main.py`). -/
theorem c9_counterexample :
    (multiInit exeDefaultName [] "m").map MC.binFolders = .ok [""]
    ∧ stem "main.py" = "main"
    ∧ ([""] : List String) ≠ ["main"] := by
  refine ⟨rfl, by decide, by decide⟩

/-- C9 amended: the per-target bin-subfolder name equals the stem of the
main file only when the target's app name is literally `None`; for any
string app name — the constructor default `""` included — it equals that
string. -/
theorem c9_amended_binfolder_rule
    (compiler : EXE) (compilers : List EXE) (appname : String) (mc : MC)
    (h : multiInit compiler compilers appname = .ok mc) :
    mc.binFolders = (compilers ++ [compiler]).map
      (fun c => match c.appName with
                | none => stem c.mainFile
                | some s => s) := by
  simp only [multiInit] at h
  cases hfl : mcFirstLoop (compilers ++ [compiler]) [some appname] [] [] with
  | error e => rw [hfl] at h; cases h
  | ok p =>
      rw [hfl] at h
      obtain ⟨mainfiles, binfolders⟩ := p
      cases h
      obtain ⟨_, hb⟩ := mcFirstLoop_ok _ _ _ _ _ _ hfl
      simpa using hb

/-- C9 witness: the amended statement applied to a merge containing one
target whose app name was left at the default `""`. -/
theorem c9_witness :
    multiInit exeDefaultName [] "m" = .ok mcDefaultName
    ∧ mcDefaultName.binFolders = (([] : List EXE) ++ [exeDefaultName]).map
        (fun c => match c.appName with
                  | none => stem c.mainFile
                  | some s => s) :=
  ⟨rfl, c9_amended_binfolder_rule exeDefaultName [] "m" mcDefaultName rfl⟩

/-- C10: `QCompilerPYC.clean_directory` on an existing directory removes
every file and subdirectory under it and then the directory itself, which
therefore no longer exists afterwards; on a path that does not exist it
raises `FileNotFoundError` (from `os.listdir`) and leaves the filesystem
unchanged. -/
theorem c10_clean_directory_spec (parent : List FSEntry) (target : String) :
    (findEntry target parent = none →
      clean_directory parent target = (.error .fileNotFoundError, parent))
    ∧ (∀ dname cs, findEntry target parent = some (.dir dname cs) →
        (clean_directory parent target).1 = .ok ()
        ∧ findEntry target (clean_directory parent target).2 = none) := by
  constructor
  · intro h
    simp [clean_directory, h]
  · intro dname cs h
    simp [clean_directory, h, cleanLoop_ok cs, findEntry_removeEntry]

/-- C10 witness: the specification applied to the concrete parent listing
`[dir d [file f]]`, at the missing name `missing` and at the existing
directory `d`. -/
theorem c10_witness :
    clean_directory [FSEntry.dir "d" [FSEntry.file "f" true]] "missing"
        = (.error .fileNotFoundError, [FSEntry.dir "d" [FSEntry.file "f" true]])
    ∧ (clean_directory [FSEntry.dir "d" [FSEntry.file "f" true]] "d").1 = .ok ()
    ∧ findEntry "d" (clean_directory [FSEntry.dir "d" [FSEntry.file "f" true]] "d").2
        = none := by
  refine ⟨(c10_clean_directory_spec [FSEntry.dir "d" [FSEntry.file "f" true]] "missing").1 ?_,
    (c10_clean_directory_spec [FSEntry.dir "d" [FSEntry.file "f" true]] "d").2
      "d" [FSEntry.file "f" true] ?_⟩
  · rfl
  · rfl

lemma joinPath_singleton (s : String) : joinPath [s] = s := rfl

lemma reindexRel_spec (c : EXE) (folder : List String) (es : List FSEntry) :
    ∀ p ∈ reindexRel c folder es,
      folder <+: p
      ∧ folder.length < p.length
      ∧ (∀ i, folder.length < i → i ≤ p.length → joinPath (p.take i) ∉ c.exclude)
      ∧ (∀ s ∈ p.drop folder.length, s ≠ "__pycache__") := by
  induction folder, es using reindexRel.induct c with
  | case1 folder => simp [reindexRel]
  | case2 folder n w rest ep hex ih =>
      intro p hp
      simp [reindexRel, hex] at hp
      exact ih p hp
  | case3 folder n w rest ep hex hres ih =>
      intro p hp
      simp [reindexRel, hex, hres] at hp
      exact ih p hp
  | case4 folder n w rest ep hex hres hpyc ih =>
      intro p hp
      have hpyc2 : n = "__pycache__" := by simpa using hpyc
      simp [reindexRel, hex, hres, hpyc2] at hp
      exact ih p hp
  | case5 folder n w rest ep hex hres hpyc ih =>
      intro p hp
      have hpycn : n ≠ "__pycache__" := by simpa using hpyc
      simp [reindexRel, hex, hres, hpycn] at hp
      rcases hp with rfl | hp'
      · refine ⟨List.prefix_append folder [n], by simp, ?_, ?_⟩
        · intro i hi1 hi2
          have hlen : (folder ++ [n]).length = folder.length + 1 := by simp
          have hieq : i = folder.length + 1 := by omega
          subst hieq
          rw [List.take_of_length_le (by simp)]
          exact hex
        · intro s hs
          rw [List.drop_left] at hs
          have hsn : s = n := by simpa using hs
          exact hsn ▸ hpycn
      · exact ih p hp'
  | case6 folder n cs rest ep hex ih =>
      intro p hp
      simp [reindexRel, hex] at hp
      exact ih p hp
  | case7 folder n cs rest ep hex hres ih =>
      intro p hp
      simp [reindexRel, hex, hres] at hp
      exact ih p hp
  | case8 folder n cs rest ep hex hres hpyc ih =>
      intro p hp
      have hpyc2 : n = "__pycache__" := by simpa using hpyc
      simp [reindexRel, hex, hres, hpyc2] at hp
      exact ih p hp
  | case9 folder n cs rest ep hex hres hpyc ihcs ihrest =>
      intro p hp
      have hpycn : n ≠ "__pycache__" := by simpa using hpyc
      simp [reindexRel, hex, hres, hpycn] at hp
      have hepeq : ep = folder ++ [n] := rfl
      simp only [hepeq] at ihcs
      rcases hp with hpl | hpr
      · obtain ⟨hpre, hlen, hanc, hpyc2⟩ := ihcs p hpl
        have heplen : (folder ++ [n]).length = folder.length + 1 := by simp
        rw [heplen] at hlen
        refine ⟨(List.prefix_append folder [n]).trans hpre, by omega, ?_, ?_⟩
        · intro i hi1 hi2
          by_cases hcut : folder.length + 1 < i
          · exact hanc i (by rw [heplen]; exact hcut) hi2
          · have hieq : i = folder.length + 1 := by omega
            subst hieq
            have htake : p.take (folder ++ [n]).length = folder ++ [n] :=
              (List.prefix_iff_eq_take.mp hpre).symm
            rw [heplen] at htake
            rw [htake]
            exact hex
        · obtain ⟨t, rfl⟩ := hpre
          rw [List.drop_left] at hpyc2
          intro s hs
          rw [List.append_assoc, List.drop_left] at hs
          rcases List.mem_cons.mp (by simpa using hs) with rfl | hst
          · exact hpycn
          · exact hpyc2 s hst
      · exact ihrest p hpr

/-- C7 amended: for every project tree and every exclusion set, the file
list produced by `reindex()` contains no path that equals or lies under an
entry of the exclusion set (no initial sub-path of an indexed path joins to
an exclusion entry), no path containing a `__pycache__` component at any
depth, and no path whose TOP-LEVEL component is `bin` or `obj` — but `bin`
and `obj` are only filtered at the top level: a nested directory named
`bin` or `obj` is indexed (see the counterexample). -/
theorem c7_amended_reindex_filtering (c : EXE) (es : List FSEntry) :
    ∀ p ∈ reindexTop c es,
      p ≠ []
      ∧ (∀ i, 0 < i → i ≤ p.length → joinPath (p.take i) ∉ c.exclude)
      ∧ (∀ s ∈ p, s ≠ "__pycache__")
      ∧ p.head? ≠ some "bin" ∧ p.head? ≠ some "obj" := by
  induction es with
  | nil => simp [reindexTop]
  | cons e rest ih =>
      cases e with
      | file n w =>
          intro p hp
          simp only [reindexTop] at hp
          by_cases h1 : n ∈ c.exclude
          · rw [if_pos h1] at hp; exact ih p hp
          · rw [if_neg h1] at hp
            by_cases h2 : n ∈ ["bin", "obj", "__pycache__", c.mainFile]
            · rw [if_pos h2] at hp; exact ih p hp
            · rw [if_neg h2] at hp
              rcases List.mem_cons.mp hp with rfl | hp'
              · have h2s : ¬(n = "bin" ∨ n = "obj" ∨ n = "__pycache__" ∨ n = c.mainFile) := by
                  simpa using h2
                push_neg at h2s
                obtain ⟨hb, ho, hpc, hm⟩ := h2s
                refine ⟨by simp, ?_, ?_, ?_, ?_⟩
                · intro i hi1 hi2
                  have hi : i = 1 := by
                    simp only [List.length_singleton] at hi2
                    omega
                  subst hi
                  simpa [joinPath_singleton] using h1
                · intro s hs
                  have hsn : s = n := by simpa using hs
                  subst hsn
                  exact hpc
                · simpa using hb
                · simpa using ho
              · exact ih p hp'
      | dir n cs =>
          intro p hp
          simp only [reindexTop] at hp
          by_cases h1 : n ∈ c.exclude
          · rw [if_pos h1] at hp; exact ih p hp
          · rw [if_neg h1] at hp
            by_cases h2 : n ∈ ["bin", "obj", "__pycache__", c.mainFile]
            · rw [if_pos h2] at hp; exact ih p hp
            · rw [if_neg h2] at hp
              rcases List.mem_append.mp hp with hpl | hpr
              · obtain ⟨hpre, hlen, hanc, hpyc⟩ := reindexRel_spec c [n] cs p hpl
                have h2s : ¬(n = "bin" ∨ n = "obj" ∨ n = "__pycache__" ∨ n = c.mainFile) := by
                  simpa using h2
                push_neg at h2s
                obtain ⟨hb, ho, hpc, hm⟩ := h2s
                obtain ⟨t, rfl⟩ := hpre
                rw [List.drop_left] at hpyc
                refine ⟨by simp, ?_, ?_, ?_, ?_⟩
                · intro i hi1 hi2
                  by_cases hcut : 1 < i
                  · exact hanc i (by simpa using hcut) hi2
                  · have hi : i = 1 := by omega
                    subst hi
                    have htake : ([n] ++ t).take 1 = [n] := by simp
                    rw [htake]
                    simpa [joinPath_singleton] using h1
                · intro s hs
                  rcases List.mem_cons.mp (by simpa using hs) with rfl | hst
                  · exact hpc
                  · exact hpyc s hst
                · simpa using hb
                · simpa using ho
              · exact ih p hpr

/-- C7 counterexample: the claim states `reindex()` output never contains a
path under a directory named `bin`, `obj`, or `__pycache__` at ANY depth.
But the reserved-name check compares the full relative path (`"sub/bin"`)
against the literal `"bin"`, and the per-level basename check only covers
`"__pycache__"`: a file under the nested directory `sub/bin` is indexed. -/
theorem c7_counterexample :
    reindexTop exeIdx7 [FSEntry.dir "sub" [FSEntry.dir "bin" [FSEntry.file "f.txt" true]]]
      = [["sub", "bin", "f.txt"]]
    ∧ "bin" ∈ (["sub", "bin", "f.txt"] : List String) := by
  constructor
  · have hj1 : joinPath ["sub", "bin"] = "sub/bin" := by decide
    have hj2 : joinPath ["sub", "bin", "f.txt"] = "sub/bin/f.txt" := by decide
    simp [reindexTop, reindexRel, exeIdx7, hj1, hj2]
  · simp

/-- C7 witness: the amended filtering statement applied to a concrete tree
and the indexed path `a.py`. -/
theorem c7_witness :
    ["a.py"] ∈ reindexTop exeIdx [FSEntry.file "a.py" true, FSEntry.file "skip.txt" true]
    ∧ ((["a.py"] : List String) ≠ []
      ∧ (∀ i, 0 < i → i ≤ (["a.py"] : List String).length →
          joinPath (List.take i ["a.py"]) ∉ exeIdx.exclude)
      ∧ (∀ s ∈ (["a.py"] : List String), s ≠ "__pycache__")
      ∧ (["a.py"] : List String).head? ≠ some "bin"
      ∧ (["a.py"] : List String).head? ≠ some "obj") := by
  have hmem : ["a.py"] ∈ reindexTop exeIdx [FSEntry.file "a.py" true, FSEntry.file "skip.txt" true] := by
    simp [reindexTop, exeIdx]
  exact ⟨hmem, c7_amended_reindex_filtering exeIdx _ ["a.py"] hmem⟩
